import Mathlib

/-!
Verification development for the Polymarket data-logger pipeline
(`fetch_data.py`).  The Python source is shallowly embedded: every
network response is an explicit `Option`-valued input (with `none`
standing for a transport error, a non-OK status, or an undecodable
body), Python floats are idealized as exact rationals, Python `round`
is modelled as round-half-to-even on rationals, and Python truthiness
is made explicit wherever the source branches on it.  Rational values
are always constructed through `mkRat` and integer arithmetic so that
every embedded function evaluates by kernel reduction.
-/

set_option maxRecDepth 100000

/-- Exact-arithmetic subtraction on ℚ (equal to `a - b`, see
`qsub_eq`); stated through `mkRat` so that it evaluates. -/
def qsub (a b : ℚ) : ℚ := mkRat (a.num * b.den - a.den * b.num) (a.den * b.den)

/-- Exact-arithmetic addition on ℚ (equal to `a + b`, see `qadd_eq`). -/
def qadd (a b : ℚ) : ℚ := mkRat (a.num * b.den + a.den * b.num) (a.den * b.den)

/-- Exact-arithmetic negation on ℚ (equal to `-a`, see `qneg_eq`). -/
def qneg (a : ℚ) : ℚ := mkRat (-a.num) a.den

lemma qsub_eq (a b : ℚ) : qsub a b = a - b := by
  have ha : ((a.den : ℚ)) ≠ 0 := Nat.cast_ne_zero.mpr a.den_nz
  have hb : ((b.den : ℚ)) ≠ 0 := Nat.cast_ne_zero.mpr b.den_nz
  unfold qsub
  rw [Rat.mkRat_eq_divInt, Rat.divInt_eq_div]
  conv_rhs => rw [← Rat.num_div_den a, ← Rat.num_div_den b]
  rw [div_sub_div _ _ ha hb]
  push_cast
  ring_nf

lemma qadd_eq (a b : ℚ) : qadd a b = a + b := by
  have ha : ((a.den : ℚ)) ≠ 0 := Nat.cast_ne_zero.mpr a.den_nz
  have hb : ((b.den : ℚ)) ≠ 0 := Nat.cast_ne_zero.mpr b.den_nz
  unfold qadd
  rw [Rat.mkRat_eq_divInt, Rat.divInt_eq_div]
  conv_rhs => rw [← Rat.num_div_den a, ← Rat.num_div_den b]
  rw [div_add_div _ _ ha hb]
  push_cast
  ring_nf

lemma qneg_eq (a : ℚ) : qneg a = -a := by
  have ha : ((a.den : ℚ)) ≠ 0 := Nat.cast_ne_zero.mpr a.den_nz
  unfold qneg
  rw [Rat.mkRat_eq_divInt, Rat.divInt_eq_div]
  conv_rhs => rw [← Rat.num_div_den a]
  push_cast
  field_simp

/-- The integer nearest `q * m`, ties to even: the idealization of
Python's `round(q, n)` at scale `m = 10 ^ n`, carried out entirely in
integer arithmetic so that it evaluates by kernel reduction. -/
def pyRoundTo (m : ℕ) (q : ℚ) : ℤ :=
  let a := q.num * m
  let b := (q.den : ℤ)
  let f := Int.fdiv a b
  let r := a - f * b
  if 2 * r < b then f
  else if b < 2 * r then f + 1
  else if f % 2 = 0 then f else f + 1

/-- Python's `round(q, n)`: round to `n` decimal places, ties to even. -/
def roundN (n : ℕ) (q : ℚ) : ℚ := mkRat (pyRoundTo (10 ^ n) q) (10 ^ n)

lemma pyRoundTo_mul_eq (m : ℕ) (q : ℚ) (k : ℤ) (h : q * (m : ℚ) = (k : ℚ)) :
    pyRoundTo m q = k := by
  have hd0 : (0 : ℤ) < (q.den : ℤ) := by exact_mod_cast q.den_pos
  have hdQ : ((q.den : ℚ)) ≠ 0 := Nat.cast_ne_zero.mpr q.den_nz
  have hnum : q.num * (m : ℤ) = k * (q.den : ℤ) := by
    have hq : (q.num : ℚ) = q * (q.den : ℚ) :=
      (div_eq_iff hdQ).mp (Rat.num_div_den q)
    have hQ : (q.num : ℚ) * (m : ℚ) = (k : ℚ) * (q.den : ℚ) := by
      calc (q.num : ℚ) * (m : ℚ) = (q * (q.den : ℚ)) * (m : ℚ) := by rw [hq]
        _ = (q * (m : ℚ)) * (q.den : ℚ) := by ring
        _ = (k : ℚ) * (q.den : ℚ) := by rw [h]
    exact_mod_cast hQ
  simp only [pyRoundTo, hnum, Int.mul_fdiv_cancel _ (by omega : (q.den : ℤ) ≠ 0),
    sub_self, mul_zero]
  rw [if_pos hd0]

lemma roundN_idem (n : ℕ) (q : ℚ) : roundN n (roundN n q) = roundN n q := by
  unfold roundN
  congr 1
  apply pyRoundTo_mul_eq
  rw [Rat.mkRat_eq_divInt, Rat.divInt_eq_div]
  have h10 : (((10 : ℕ) ^ n : ℤ) : ℚ) ≠ 0 := by positivity
  push_cast at h10 ⊢
  field_simp

lemma roundN_zero (n : ℕ) : roundN n 0 = 0 := by
  have h : pyRoundTo (10 ^ n) (0 : ℚ) = 0 := by
    apply pyRoundTo_mul_eq
    push_cast
    ring
  unfold roundN
  rw [h, Rat.mkRat_eq_divInt, Rat.divInt_eq_div]
  push_cast
  simp

/-- Digit list to natural number, most significant first. -/
def digitsToNat (l : List Char) : ℕ :=
  l.foldl (fun n c => 10 * n + (c.toNat - 48)) 0

/-- Parse an unsigned decimal literal (`12`, `12.5`, `.5`, `5.`) from the
front of a character list, returning its exact value and the rest. -/
def parseUnsigned (cs : List Char) : Option (ℚ × List Char) :=
  let intPart := cs.takeWhile Char.isDigit
  let rest := cs.dropWhile Char.isDigit
  match rest with
  | '.' :: rest2 =>
    let fracPart := rest2.takeWhile Char.isDigit
    let rest3 := rest2.dropWhile Char.isDigit
    if intPart.isEmpty && fracPart.isEmpty then none
    else some (mkRat (digitsToNat intPart * 10 ^ fracPart.length + digitsToNat fracPart) (10 ^ fracPart.length), rest3)
  | _ => if intPart.isEmpty then none else some (mkRat (digitsToNat intPart) 1, rest)

/-- Parse an optionally signed decimal literal. -/
def parseNumber (cs : List Char) : Option (ℚ × List Char) :=
  match cs with
  | '-' :: rest => (parseUnsigned rest).map (fun p => (qneg p.1, p.2))
  | '+' :: rest => parseUnsigned rest
  | _ => parseUnsigned cs

/-- Python `float(s)` on a decimal string, idealized over ℚ: the exact
value when `s` (modulo surrounding spaces) is a signed decimal literal,
`none` (a raised `ValueError`) otherwise. -/
def pyFloatOfString (s : String) : Option ℚ :=
  match parseNumber (s.toList.dropWhile (· == ' ')) with
  | some (q, rest) => if rest.dropWhile (· == ' ') = [] then some q else none
  | none => none

/-- A JSON scalar as it appears inside an outcome-prices array or an
orderbook entry: a string or a number. -/
inductive PVal where
  | str (s : String)
  | num (q : ℚ)
deriving DecidableEq

/-- Python truthiness of such a scalar: a string is truthy iff
non-empty, a number iff non-zero. -/
def pvTruthy : PVal → Bool
  | PVal.str s => s != ""
  | PVal.num q => decide (q ≠ 0)

/-- Python `float(v)` on a JSON scalar: numbers convert exactly,
strings go through decimal parsing; `none` is a raised exception. -/
def pvalToFloat : PVal → Option ℚ
  | PVal.str s => pyFloatOfString s
  | PVal.num q => some q

/-- Tokens of the textual outcome-prices encodings. -/
inductive Tok where
  | lb
  | rb
  | comma
  | star
  | numT (q : ℚ)
  | strT (s : String)
deriving DecidableEq

def isNumStart (c : Char) : Bool :=
  c.isDigit || c == '-' || c == '+' || c == '.'

/-- Tokenizer shared by the strict JSON-array parser and the modelled
expression evaluator; fuel-indexed, one character minimum per step. -/
def tokenize : ℕ → List Char → Option (List Tok)
  | 0, _ => none
  | _ + 1, [] => some []
  | fuel + 1, c :: cs =>
    if c == ' ' then tokenize fuel cs
    else if c == '[' then (tokenize fuel cs).map (fun ts => Tok.lb :: ts)
    else if c == ']' then (tokenize fuel cs).map (fun ts => Tok.rb :: ts)
    else if c == ',' then (tokenize fuel cs).map (fun ts => Tok.comma :: ts)
    else if c == '*' then (tokenize fuel cs).map (fun ts => Tok.star :: ts)
    else if c == '"' then
      match cs.dropWhile (· != '"') with
      | '"' :: rest => (tokenize fuel rest).map (fun ts => Tok.strT (String.mk (cs.takeWhile (· != '"'))) :: ts)
      | _ => none
    else if isNumStart c then
      match parseNumber (c :: cs) with
      | some (q, rest) => (tokenize fuel rest).map (fun ts => Tok.numT q :: ts)
      | none => none
    else none

def parseItem : Tok → Option PVal
  | Tok.numT q => some (PVal.num q)
  | Tok.strT s => some (PVal.str s)
  | _ => none

/-- Comma-separated scalar items up to a closing bracket; the flag
allows a trailing comma (Python list literals) or forbids it (JSON). -/
def parseItems : ℕ → Bool → List Tok → Option (List PVal × List Tok)
  | 0, _, _ => none
  | _ + 1, _, [] => none
  | fuel + 1, trail, t :: rest =>
    match parseItem t with
    | none => none
    | some v =>
      match rest with
      | Tok.comma :: Tok.rb :: rest2 => if trail then some ([v], rest2) else none
      | Tok.comma :: rest2 => (parseItems fuel trail rest2).map (fun p => (v :: p.1, p.2))
      | Tok.rb :: rest2 => some ([v], rest2)
      | _ => none

/-- A bracketed array of scalars. -/
def parseArray (trail : Bool) (toks : List Tok) : Option (List PVal × List Tok) :=
  match toks with
  | Tok.lb :: Tok.rb :: rest => some ([], rest)
  | Tok.lb :: rest => parseItems (rest.length + 1) trail rest
  | _ => none

/-- Modelled from the spec: the strict JSON-style array parser the spec
requires for the outcome-prices field (the source has no such parser;
it calls Python `eval` instead).  Accepts exactly a literally encoded
array of numbers/strings with nothing before or after it. -/
def jsonParsePrices (s : String) : Option (List PVal) :=
  match tokenize (s.toList.length + 1) s.toList with
  | none => none
  | some toks =>
    match parseArray false toks with
    | some (l, []) => some l
    | _ => none

/-- Fragment model of Python `eval` as applied to the outcome-prices
text: every input this function accepts, Python `eval` accepts with the
same value (list literals, optionally with a trailing comma, and
list-repetition expressions `lit * n`); other inputs are conservatively
mapped to `none` (covering both a raised error and a non-list result,
which the callers' `except` blocks turn into an absence of data). -/
def pyEvalPrices (s : String) : Option (List PVal) :=
  match tokenize (s.toList.length + 1) s.toList with
  | none => none
  | some toks =>
    match parseArray true toks with
    | some (l, []) => some l
    | some (l, [Tok.star, Tok.numT q]) =>
      if q.den = 1 then some ((List.replicate q.num.toNat l).flatten) else none
    | _ => none

example : pyFloatOfString "0.95" = some (mkRat 19 20) := by decide
example : pyFloatOfString "-1.5" = some (qneg (mkRat 3 2)) := by decide
example : pyFloatOfString "abc" = none := by decide
example : pyRoundTo 10 (mkRat 3 20) = 2 := by decide
example : pyRoundTo 10 (mkRat 5 20) = 2 := by decide
example : roundN 4 (qsub (mkRat 13 20) (mkRat 31 50)) = mkRat 3 100 := by decide
example : jsonParsePrices "[0.5]*2" = none := by decide
example : pyEvalPrices "[0.5]*2" = some [PVal.num (mkRat 1 2), PVal.num (mkRat 1 2)] := by decide
example : pyEvalPrices "[0.95, 0.05]" = some [PVal.num (mkRat 19 20), PVal.num (mkRat 1 20)] := by decide
example : (100 : ℚ) = mkRat 100 1 := by decide
example : (0 : ℚ) = mkRat 0 5 := by decide

/-! ## Data model

JSON response shapes, typed as the source reads them: optional fields
model `dict.get` defaults, `Option` envelopes model the whole request
(`none` = transport error, non-OK status, undecodable body, or an
empty response array). -/

/-- The string- or array-encoded outcome-prices field. -/
inductive OPVal where
  | strV (s : String)
  | listV (l : List PVal)
deriving DecidableEq

/-- One market object of a Gamma event response. -/
structure Market where
  question : Option String
  clobTokenIds : List String
  outcomes : List String
  outcomePrices : Option OPVal
  volume : Option String
  liquidity : Option String
deriving DecidableEq

/-- One Gamma event: title plus constituent markets. -/
structure Event where
  title : Option String
  markets : List Market
deriving DecidableEq

/-- An outcome descriptor as built by `get_markets_for_event`
(the dicts appended to its `markets` list). -/
structure Descriptor where
  slug : String
  question : String
  token_id : Option String
  outcome : String
  price_from_gamma : Option ℚ
deriving DecidableEq

/-- One `{price, size}` entry of an orderbook side. -/
structure Entry where
  price : Option PVal
  size : Option PVal
deriving DecidableEq

/-- A CLOB `book` response. -/
structure Book where
  bids : List Entry
  asks : List Entry
deriving DecidableEq

/-- A CLOB `midpoint` response. -/
structure MidResp where
  mid : Option PVal
deriving DecidableEq

/-- The `result` dict of `get_orderbook`. -/
structure Snapshot where
  best_bid : Option ℚ
  best_ask : Option ℚ
  spread : Option ℚ
  bid_depth : ℚ
  ask_depth : ℚ
deriving DecidableEq

/-- The dict returned by `get_price_from_gamma`. -/
structure GammaData where
  question : String
  price : Option ℚ
  volume : String
  liquidity : String
deriving DecidableEq

/-- The row dict built in `main`; its eleven fields are the CSV
schema, identical on both source paths. -/
structure OutputRow where
  timestamp : String
  slug : String
  question : String
  price : Option ℚ
  best_bid : Option ℚ
  best_ask : Option ℚ
  spread : Option ℚ
  bid_depth : ℚ
  ask_depth : ℚ
  volume : String
  liquidity : String
deriving DecidableEq

/-- The four network responses observed while processing one slug:
the Gamma event lookup of `get_markets_for_event`, the CLOB book and
midpoint lookups, and the separate Gamma event lookup of
`get_price_from_gamma`. -/
structure World where
  eventResp : Option Event
  bookResp : Option Book
  midResp : Option MidResp
  gammaResp : Option Event
deriving DecidableEq

/-- One line of the CSV dataset: the header or a data row. -/
inductive CsvLine where
  | header
  | data (r : OutputRow)
deriving DecidableEq

/-- Python truthiness of a token id: `None` and `""` are falsy. -/
def tokTruthy : Option String → Bool
  | none => false
  | some s => s != ""

/-! ## Embedded source functions -/

/-- The parsed outcome-prices value reaching `if prices and len(prices) > 0`:
missing field defaults to `""` (falsy), a falsy field is skipped, a string
field goes through `eval`, a list field is used as-is.  `none` covers every
way the source ends up without a usable list (falsy field, `eval` error,
non-list `eval` result). -/
def opParsed (m : Market) : Option (List PVal) :=
  match m.outcomePrices.getD (OPVal.strV "") with
  | OPVal.strV s => if s = "" then none else pyEvalPrices s
  | OPVal.listV l => if l = [] then none else some l

/-- The loop of `get_markets_for_event`: one descriptor per market with
a non-empty `clobTokenIds`, carrying its first token id. -/
def loopDescriptors (slug : String) (ev : Event) : List Descriptor :=
  ev.markets.filterMap (fun m =>
    match m.clobTokenIds with
    | [] => none
    | t :: _ => some ⟨slug, m.question.getD "", some t, m.outcomes.headD "Yes", none⟩)

/-- The `if not markets and event.get("markets")` fallback of
`get_markets_for_event`: a single synthetic descriptor with no token
id, built from the first market's outcome prices; empty when the
prices are unusable or `float(prices[0])` raises. -/
def syntheticDescriptor (slug : String) (ev : Event) : List Descriptor :=
  match ev.markets with
  | [] => []
  | m :: _ =>
    match opParsed m with
    | some (p :: _) =>
      if pvTruthy p then
        match pvalToFloat p with
        | some q => [⟨slug, m.question.getD (ev.title.getD slug), none, "Yes", some q⟩]
        | none => []
      else [⟨slug, m.question.getD (ev.title.getD slug), none, "Yes", none⟩]
    | _ => []

/-- `get_markets_for_event(slug)`, with the event response as explicit
input (`none`: request failure, non-OK status, or empty response). -/
def get_markets_for_event (slug : String) (fetch : Option Event) : List Descriptor :=
  match fetch with
  | none => []
  | some ev =>
    if (loopDescriptors slug ev).isEmpty then syntheticDescriptor slug ev
    else loopDescriptors slug ev

/-- All-default `result` dict of `get_orderbook`. -/
def defaultSnapshot : Snapshot :=
  { best_bid := none, best_ask := none, spread := none, bid_depth := 0, ask_depth := 0 }

/-- `sum(float(e.get("size", 0)) for e in entries)`; `none` is a raised
conversion error (the assignment then never happens). -/
def sumSizes : List Entry → Option ℚ
  | [] => some 0
  | e :: rest =>
    match pvalToFloat (e.size.getD (PVal.num 0)), sumSizes rest with
    | some x, some r => some (qadd x r)
    | _, _ => none

/-- The `if bids:` block of `get_orderbook`.  The Bool records whether
the block completed without an exception; on an exception the snapshot
holds exactly the fields assigned before it was raised. -/
def bidPhase (book : Book) : Snapshot × Bool :=
  match book.bids with
  | [] => (defaultSnapshot, true)
  | b :: _ =>
    match pvalToFloat (b.price.getD (PVal.num 0)) with
    | none => (defaultSnapshot, false)
    | some bb =>
      match sumSizes book.bids with
      | none => ({ defaultSnapshot with best_bid := some bb }, false)
      | some d => ({ defaultSnapshot with best_bid := some bb, bid_depth := d }, true)

/-- The `if asks:` block of `get_orderbook`, updating the snapshot left
by the bids block; same exception convention as `bidPhase`. -/
def askPhase (s : Snapshot) (book : Book) : Snapshot × Bool :=
  match book.asks with
  | [] => (s, true)
  | a :: _ =>
    match pvalToFloat (a.price.getD (PVal.num 0)) with
    | none => (s, false)
    | some ba =>
      match sumSizes book.asks with
      | none => ({ s with best_ask := some ba }, false)
      | some d => ({ s with best_ask := some ba, ask_depth := d }, true)

/-- `if result["best_bid"] and result["best_ask"]: result["spread"] = round(..., 4)`:
Python truthiness, so `None` and `0.0` both skip the assignment. -/
def spreadPhase (s : Snapshot) : Snapshot :=
  match s.best_bid, s.best_ask with
  | some bb, some ba =>
    if bb ≠ 0 ∧ ba ≠ 0 then { s with spread := some (roundN 4 (qsub ba bb)) } else s
  | _, _ => s

/-- The `try` body of `get_orderbook` on a decoded book: each block
runs only if the previous one raised no exception. -/
def runBook (book : Book) : Snapshot :=
  match bidPhase book with
  | (s1, false) => s1
  | (s1, true) =>
    match askPhase s1 book with
    | (s2, false) => s2
    | (s2, true) => spreadPhase s2

/-- `get_orderbook(token_id)`, with the book response as explicit input. -/
def get_orderbook (token_id : Option String) (fetch : Option Book) : Snapshot :=
  if tokTruthy token_id then
    match fetch with
    | none => defaultSnapshot
    | some book => runBook book
  else defaultSnapshot

/-- `get_midpoint(token_id)`, with the midpoint response as explicit
input; `float(data.get("mid", 0))`, any failure yields `None`. -/
def get_midpoint (token_id : Option String) (fetch : Option MidResp) : Option ℚ :=
  if tokTruthy token_id then
    match fetch with
    | none => none
    | some d => pvalToFloat (d.mid.getD (PVal.num 0))
  else none

/-- `get_price_from_gamma(slug)`, with its own event response as
explicit input. -/
def get_price_from_gamma (slug : String) (fetch : Option Event) : Option GammaData :=
  match fetch with
  | none => none
  | some ev =>
    match ev.markets with
    | [] => none
    | m :: _ =>
      match opParsed m with
      | some (p :: _) =>
        if pvTruthy p then
          match pvalToFloat p with
          | some q => some ⟨m.question.getD (ev.title.getD slug), some q, m.volume.getD "0", m.liquidity.getD "0"⟩
          | none => none
        else some ⟨m.question.getD (ev.title.getD slug), none, m.volume.getD "0", m.liquidity.getD "0"⟩
      | _ => none

/-- `if markets and markets[0].get("token_id"):` — the pipeline's path
selection looks only at the first descriptor. -/
def pickFirst (ms : List Descriptor) : Option Descriptor :=
  match ms with
  | [] => none
  | m :: _ => if tokTruthy m.token_id then some m else none

/-- The CLOB-path row dict literal of `main`. -/
def buildClobRow (ts slug : String) (m : Descriptor) (ob : Snapshot) (mid : Option ℚ) : OutputRow :=
  { timestamp := ts, slug := slug, question := m.question.take 100, price := mid,
    best_bid := ob.best_bid, best_ask := ob.best_ask, spread := ob.spread,
    bid_depth := roundN 2 ob.bid_depth, ask_depth := roundN 2 ob.ask_depth,
    volume := "", liquidity := "" }

/-- The Gamma-fallback row dict literal of `main`. -/
def buildGammaRow (ts slug : String) (g : GammaData) : OutputRow :=
  { timestamp := ts, slug := slug, question := g.question.take 100, price := g.price,
    best_bid := none, best_ask := none, spread := none, bid_depth := 0, ask_depth := 0,
    volume := g.volume, liquidity := g.liquidity }

/-- One iteration of `main`'s loop: the row appended for a slug, or
`none` when the iteration hits `continue`. -/
def processSlug (ts slug : String) (w : World) : Option OutputRow :=
  match pickFirst (get_markets_for_event slug w.eventResp) with
  | some m =>
    some (buildClobRow ts slug m (get_orderbook m.token_id w.bookResp) (get_midpoint m.token_id w.midResp))
  | none => Option.map (buildGammaRow ts slug) (get_price_from_gamma slug w.gammaResp)

/-- `main`'s loop over the configured slugs: the `rows` list it builds. -/
def runPipeline (ts : String) (inputs : List (String × World)) : List OutputRow :=
  inputs.filterMap (fun i => processSlug ts i.1 i.2)

/-- `write_to_csv(rows)`: the CSV file as a line list, `none` input
meaning the file does not exist yet; append mode, header written only
at creation. -/
def write_to_csv (file : Option (List CsvLine)) (rows : List OutputRow) : List CsvLine :=
  (match file with
   | none => [CsvLine.header]
   | some l => l) ++ rows.map CsvLine.data

/-- The tail of `main`: write the collected rows iff there are any. -/
def mainRun (ts : String) (inputs : List (String × World)) (file : Option (List CsvLine)) : Option (List CsvLine) :=
  if (runPipeline ts inputs).isEmpty then file
  else some (write_to_csv file (runPipeline ts inputs))

/-! ## Helper lemmas -/

lemma bidPhase_best_ask (book : Book) : (bidPhase book).1.best_ask = none := by
  unfold bidPhase
  split
  · rfl
  · split
    · rfl
    · split <;> rfl

lemma bidPhase_spread (book : Book) : (bidPhase book).1.spread = none := by
  unfold bidPhase
  split
  · rfl
  · split
    · rfl
    · split <;> rfl

lemma bidPhase_nil (book : Book) (h : book.bids = []) : bidPhase book = (defaultSnapshot, true) := by
  unfold bidPhase
  rw [h]

lemma askPhase_best_bid (s : Snapshot) (book : Book) : (askPhase s book).1.best_bid = s.best_bid := by
  unfold askPhase
  split
  · rfl
  · split
    · rfl
    · split <;> rfl

lemma askPhase_spread (s : Snapshot) (book : Book) : (askPhase s book).1.spread = s.spread := by
  unfold askPhase
  split
  · rfl
  · split
    · rfl
    · split <;> rfl

lemma askPhase_nil (s : Snapshot) (book : Book) (h : book.asks = []) : askPhase s book = (s, true) := by
  unfold askPhase
  rw [h]

lemma spreadPhase_best_bid (s : Snapshot) : (spreadPhase s).best_bid = s.best_bid := by
  unfold spreadPhase
  split
  · split <;> rfl
  · rfl

lemma spreadPhase_best_ask (s : Snapshot) : (spreadPhase s).best_ask = s.best_ask := by
  unfold spreadPhase
  split
  · split <;> rfl
  · rfl

lemma spreadPhase_spread_some (s : Snapshot) (x : ℚ) (h0 : s.spread = none)
    (h : (spreadPhase s).spread = some x) :
    ∃ bb ba, s.best_bid = some bb ∧ s.best_ask = some ba ∧ bb ≠ 0 ∧ ba ≠ 0 ∧
      x = roundN 4 (ba - bb) := by
  unfold spreadPhase at h
  split at h
  · rename_i bb ba hbb hba
    split at h
    · rename_i hz
      simp only [Option.some.injEq] at h
      exact ⟨bb, ba, hbb, hba, hz.1, hz.2, by rw [← h, qsub_eq]⟩
    · rw [h0] at h
      exact absurd h (by simp)
  · rw [h0] at h
    exact absurd h (by simp)

lemma spreadPhase_none_bb (s : Snapshot) (h : s.best_bid = none) :
    (spreadPhase s).spread = s.spread := by
  unfold spreadPhase
  rw [h]

lemma spreadPhase_none_ba (s : Snapshot) (h : s.best_ask = none) :
    (spreadPhase s).spread = s.spread := by
  unfold spreadPhase
  rw [h]
  cases s.best_bid <;> rfl

lemma loopDescriptors_token (slug : String) (ev : Event) (d : Descriptor)
    (h : d ∈ loopDescriptors slug ev) : d.token_id.isSome = true := by
  unfold loopDescriptors at h
  rw [List.mem_filterMap] at h
  obtain ⟨m, _, hm⟩ := h
  cases hc : m.clobTokenIds with
  | nil => rw [hc] at hm; exact absurd hm (by simp)
  | cons t ts =>
    rw [hc] at hm
    simp only [Option.some.injEq] at hm
    rw [← hm]
    rfl

lemma syntheticDescriptor_shape (slug : String) (ev : Event) :
    syntheticDescriptor slug ev = [] ∨
      ∃ d, syntheticDescriptor slug ev = [d] ∧ d.token_id = none := by
  unfold syntheticDescriptor
  split
  · exact Or.inl rfl
  · split
    · split
      · split
        · exact Or.inr ⟨_, rfl, rfl⟩
        · exact Or.inl rfl
      · exact Or.inr ⟨_, rfl, rfl⟩
    · exact Or.inl rfl

lemma processSlug_isSome (ts ts' slug : String) (w : World) :
    (processSlug ts slug w).isSome = (processSlug ts' slug w).isSome := by
  unfold processSlug
  cases pickFirst (get_markets_for_event slug w.eventResp) with
  | some m => rfl
  | none => cases get_price_from_gamma slug w.gammaResp <;> rfl

lemma runPipeline_length (ts ts' : String) (inputs : List (String × World)) :
    (runPipeline ts inputs).length = (runPipeline ts' inputs).length := by
  unfold runPipeline
  induction inputs with
  | nil => rfl
  | cons i rest ih =>
    rw [List.filterMap_cons, List.filterMap_cons]
    have h := processSlug_isSome ts ts' i.1 i.2
    cases hx : processSlug ts i.1 i.2 with
    | none =>
      cases hy : processSlug ts' i.1 i.2 with
      | none => exact ih
      | some r => rw [hx, hy] at h; exact absurd h (by simp)
    | some r =>
      cases hy : processSlug ts' i.1 i.2 with
      | none => rw [hx, hy] at h; exact absurd h (by simp)
      | some r' => simpa using ih

/-! ## Concrete fixtures used by witnesses and counterexamples -/

/-- A world in which every request fails. -/
def emptyWorld : World := ⟨none, none, none, none⟩

/-- The spec's worked CLOB example: one market with token id `"123"`,
bids `[{price:"0.62", size:"100"}]`, asks `[{price:"0.65", size:"50"}]`,
midpoint `{mid:"0.635"}`. -/
def mFed : Market := ⟨some "Fed decision?", ["123"], ["Yes"], none, none, none⟩

def evFed : Event := ⟨some "T", [mFed]⟩

def bookFed : Book :=
  ⟨[⟨some (PVal.str "0.62"), some (PVal.str "100")⟩],
   [⟨some (PVal.str "0.65"), some (PVal.str "50")⟩]⟩

def midFed : MidResp := ⟨some (PVal.str "0.635")⟩

def wFed : World := ⟨some evFed, some bookFed, some midFed, none⟩

/-- The row `main` emits for `wFed`. -/
def rFed : OutputRow :=
  ⟨"t", "s", String.take "Fed decision?" 100, some (mkRat 127 200), some (mkRat 31 50),
   some (mkRat 13 20), some (mkRat 3 100), mkRat 100 1, mkRat 50 1, "", ""⟩

example : processSlug "t" "s" wFed = some rFed := by decide

/-! ## Claims -/

/-- The CLOB branch of `main`: taken exactly when `pickFirst` selects a
descriptor. -/
lemma processSlug_clob (ts slug : String) (w : World) (m : Descriptor)
    (hpf : pickFirst (get_markets_for_event slug w.eventResp) = some m) :
    processSlug ts slug w = some (buildClobRow ts slug m
      (get_orderbook m.token_id w.bookResp) (get_midpoint m.token_id w.midResp)) := by
  unfold processSlug
  rw [hpf]

/-- The Gamma-fallback branch of `main`: taken exactly when `pickFirst`
selects nothing. -/
lemma processSlug_gamma (ts slug : String) (w : World)
    (hpf : pickFirst (get_markets_for_event slug w.eventResp) = none) :
    processSlug ts slug w = Option.map (buildGammaRow ts slug) (get_price_from_gamma slug w.gammaResp) := by
  unfold processSlug
  rw [hpf]

/-- C9: the Midpoint Reader yields no value on an empty/absent token id
irrespective of the network, yields no value on any failure, and
otherwise returns `float` of the response's `mid` field, a missing
field defaulting to a present `0.0`. -/
theorem C9_midpoint_spec (tok : Option String) (fetch : Option MidResp) :
    (tokTruthy tok = false → get_midpoint tok fetch = none)
    ∧ (get_midpoint tok none = none)
    ∧ (∀ d, fetch = some d → tokTruthy tok = true →
        get_midpoint tok fetch = pvalToFloat (d.mid.getD (PVal.num 0))
        ∧ (d.mid = none → get_midpoint tok fetch = some 0)) := by
  refine ⟨?_, ?_, ?_⟩
  · intro h
    simp [get_midpoint, h]
  · unfold get_midpoint
    split <;> rfl
  · intro d hd ht
    subst hd
    refine ⟨by simp [get_midpoint, ht], ?_⟩
    intro hm
    simp [get_midpoint, ht, hm, pvalToFloat]

/-- C9 witness: concrete midpoint lookups via `C9_midpoint_spec`. -/
theorem C9_midpoint_witness :
    get_midpoint (some "123") (some midFed) = pvalToFloat (midFed.mid.getD (PVal.num 0))
    ∧ get_midpoint (some "") (some midFed) = none :=
  ⟨((C9_midpoint_spec (some "123") (some midFed)).2.2 midFed rfl (by decide)).1,
   (C9_midpoint_spec (some "") (some midFed)).1 (by decide)⟩

/-- C7: a slug that yields no descriptor with a truthy token id and no
fallback record contributes no row, and the loop continues with the
remaining slugs unchanged. -/
theorem C7_skip_no_data (ts slug : String) (w : World) (rest : List (String × World))
    (h1 : ∀ d ∈ get_markets_for_event slug w.eventResp, tokTruthy d.token_id = false)
    (h2 : get_price_from_gamma slug w.gammaResp = none) :
    runPipeline ts ((slug, w) :: rest) = runPipeline ts rest
    ∧ (runPipeline ts ((slug, w) :: rest)).length = (runPipeline ts rest).length := by
  have hnone : processSlug ts slug w = none := by
    unfold processSlug
    have hpf : pickFirst (get_markets_for_event slug w.eventResp) = none := by
      cases hms : get_markets_for_event slug w.eventResp with
      | nil => rfl
      | cons m ms =>
        have hm := h1 m (by rw [hms]; exact List.mem_cons_self m ms)
        simp [pickFirst, hm]
    rw [hpf, h2]
    rfl
  have heq : runPipeline ts ((slug, w) :: rest) = runPipeline ts rest := by
    unfold runPipeline
    rw [List.filterMap_cons, hnone]
  exact ⟨heq, by rw [heq]⟩

/-- C7 witness: a slug whose event lookup and fallback lookup both fail
is skipped. -/
theorem C7_skip_witness :
    runPipeline "t" [("s", emptyWorld)] = runPipeline "t" []
    ∧ (runPipeline "t" [("s", emptyWorld)]).length = (runPipeline "t" []).length :=
  C7_skip_no_data "t" "s" emptyWorld [] (by decide) (by decide)

/-- C10: the Metadata Resolver never mixes kinds: either every returned
descriptor carries a token id, or the result is exactly one synthetic
descriptor without one, emitted only when the token-id loop produced
nothing; consequently the first element has a token id iff some element
does. -/
theorem C10_no_mixed_kinds (slug : String) (fetch : Option Event) :
    ((∀ d ∈ get_markets_for_event slug fetch, d.token_id.isSome = true)
      ∨ (∃ d, get_markets_for_event slug fetch = [d] ∧ d.token_id = none
          ∧ ∀ ev, fetch = some ev → loopDescriptors slug ev = []))
    ∧ ((∃ d ∈ get_markets_for_event slug fetch, d.token_id.isSome = true)
      → ∃ d rest, get_markets_for_event slug fetch = d :: rest ∧ d.token_id.isSome = true) := by
  cases fetch with
  | none =>
    constructor
    · exact Or.inl (by intro d hd; exact absurd hd (by simp [get_markets_for_event]))
    · rintro ⟨d, hd, -⟩
      exact absurd hd (by simp [get_markets_for_event])
  | some ev =>
    by_cases he : (loopDescriptors slug ev).isEmpty
    · have hms : get_markets_for_event slug (some ev) = syntheticDescriptor slug ev := by
        show (if (loopDescriptors slug ev).isEmpty = true then syntheticDescriptor slug ev
          else loopDescriptors slug ev) = syntheticDescriptor slug ev
        rw [if_pos he]
      have hloop : loopDescriptors slug ev = [] := List.isEmpty_iff.mp he
      rcases syntheticDescriptor_shape slug ev with hs | ⟨d, hs, hd⟩
      · constructor
        · exact Or.inl (by intro d hd2; rw [hms, hs] at hd2; exact absurd hd2 (by simp))
        · rintro ⟨d, hd2, -⟩
          rw [hms, hs] at hd2
          exact absurd hd2 (by simp)
      · constructor
        · refine Or.inr ⟨d, by rw [hms, hs], hd, ?_⟩
          intro ev' hev'
          cases hev'
          exact hloop
        · rintro ⟨d', hd', hsome⟩
          rw [hms, hs] at hd'
          simp only [List.mem_singleton] at hd'
          subst hd'
          rw [hd] at hsome
          exact absurd hsome (by simp)
    · have hms : get_markets_for_event slug (some ev) = loopDescriptors slug ev := by
        show (if (loopDescriptors slug ev).isEmpty = true then syntheticDescriptor slug ev
          else loopDescriptors slug ev) = loopDescriptors slug ev
        rw [if_neg he]
      constructor
      · exact Or.inl (by intro d hd; rw [hms] at hd; exact loopDescriptors_token slug ev d hd)
      · rintro ⟨d, hd, hsome⟩
        cases hl : loopDescriptors slug ev with
        | nil => rw [hms, hl] at hd; exact absurd hd (by simp)
        | cons d0 ds =>
          refine ⟨d0, ds, by rw [hms, hl], ?_⟩
          exact loopDescriptors_token slug ev d0 (by rw [hl]; exact List.mem_cons_self d0 ds)

/-- C10 witness: on a concrete event with one tokened market, the
first returned descriptor carries a token id. -/
theorem C10_no_mixed_witness :
    ∃ d rest, get_markets_for_event "s" (some evFed) = d :: rest ∧ d.token_id.isSome = true :=
  (C10_no_mixed_kinds "s" (some evFed)).2
    ⟨⟨"s", "Fed decision?", some "123", "Yes", none⟩, by decide, by decide⟩

/-- C6: every emitted row (either source path) is a full `OutputRow`
(the eleven-field schema is the type of both branches' literals),
carries the run timestamp and slug, has its question truncated to 100
characters, and has bid/ask depth already rounded to 2 decimals. -/
theorem C6_row_shape (ts slug : String) (w : World) (r : OutputRow)
    (h : processSlug ts slug w = some r) :
    r.timestamp = ts ∧ r.slug = slug ∧ (∃ q0 : String, r.question = q0.take 100)
    ∧ roundN 2 r.bid_depth = r.bid_depth ∧ roundN 2 r.ask_depth = r.ask_depth := by
  cases hpf : pickFirst (get_markets_for_event slug w.eventResp) with
  | some m =>
    rw [processSlug_clob ts slug w m hpf] at h
    injection h with h
    subst h
    refine ⟨rfl, rfl, ⟨m.question, ?_⟩, roundN_idem 2 _, roundN_idem 2 _⟩
    simp [buildClobRow]
  | none =>
    rw [processSlug_gamma ts slug w hpf] at h
    cases hg : get_price_from_gamma slug w.gammaResp with
    | none => rw [hg] at h; exact absurd h (by simp)
    | some g =>
      rw [hg, Option.map_some'] at h
      injection h with h
      subst h
      refine ⟨rfl, rfl, ⟨g.question, ?_⟩, by simpa using roundN_zero 2, by simpa using roundN_zero 2⟩
      simp [buildGammaRow]

/-- C6 witness: the spec's worked CLOB example row. -/
theorem C6_row_witness :
    rFed.timestamp = "t" ∧ rFed.slug = "s" ∧ (∃ q0 : String, rFed.question = q0.take 100)
    ∧ roundN 2 rFed.bid_depth = rFed.bid_depth ∧ roundN 2 rFed.ask_depth = rFed.ask_depth :=
  C6_row_shape "t" "s" wFed rFed (by decide)

/-- C1/C4/C5 fixture: a book whose first bid has price `0` — both sides
present, best bid `0.0`. -/
def bookZeroBid : Book :=
  ⟨[⟨some (PVal.num 0), some (PVal.num 1)⟩],
   [⟨some (PVal.num (mkRat 1 2)), some (PVal.num 1)⟩]⟩

/-- C1 counterexample: with bids and asks both present but a best bid
of `0.0`, the snapshot has both best prices present yet a null spread,
because the source guards the spread assignment with Python truthiness
(`if result["best_bid"] and result["best_ask"]`), under which `0.0` is
false.  The claim requires `spread = round(best_ask - best_bid, 4)`
whenever both sides are present. -/
theorem C1_spread_counterexample :
    (get_orderbook (some "t") (some bookZeroBid)).best_bid = some 0
    ∧ (get_orderbook (some "t") (some bookZeroBid)).best_ask = some (mkRat 1 2)
    ∧ (get_orderbook (some "t") (some bookZeroBid)).spread = none
    ∧ (get_orderbook (some "t") (some bookZeroBid)).spread ≠ some (roundN 4 (mkRat 1 2 - 0)) := by
  refine ⟨by decide, by decide, by decide, ?_⟩
  rw [show (get_orderbook (some "t") (some bookZeroBid)).spread = none from by decide]
  simp

/-- C1 amended: whenever the snapshot's spread is present it equals
`round(best_ask - best_bid, 4)` with both best prices present and
non-zero; and whenever either side of the book has no entries the
spread is null.  (The spread can additionally be null with both sides
present: a zero best price, or a conversion failure, also suppress it.) -/
theorem C1_spread_amended (tok : Option String) (fetch : Option Book) :
    (∀ x : ℚ, (get_orderbook tok fetch).spread = some x →
      ∃ bb ba, (get_orderbook tok fetch).best_bid = some bb
        ∧ (get_orderbook tok fetch).best_ask = some ba
        ∧ bb ≠ 0 ∧ ba ≠ 0 ∧ x = roundN 4 (ba - bb))
    ∧ (∀ book, fetch = some book → book.bids = [] ∨ book.asks = [] →
        (get_orderbook tok fetch).spread = none) := by
  by_cases ht : tokTruthy tok
  · cases fetch with
    | none =>
      have hd : get_orderbook tok none = defaultSnapshot := by
        unfold get_orderbook
        split <;> rfl
      constructor
      · intro x hx
        rw [hd] at hx
        exact absurd hx (by simp [defaultSnapshot])
      · intro book hb
        exact absurd hb (by simp)
    | some book =>
      have hb : get_orderbook tok (some book) = runBook book := by
        simp [get_orderbook, ht]
      rcases h1 : bidPhase book with ⟨s1, ok1⟩
      have hs1 : s1.spread = none := by
        have := bidPhase_spread book
        rw [h1] at this
        simpa using this
      cases ok1 with
      | false =>
        have hr : runBook book = s1 := by
          simp only [runBook, h1]
        constructor
        · intro x hx
          rw [hb, hr, hs1] at hx
          exact absurd hx (by simp)
        · intro book' hfb hside
          rw [hb, hr, hs1]
      | true =>
        rcases h2 : askPhase s1 book with ⟨s2, ok2⟩
        have hs2 : s2.spread = s1.spread := by
          have := askPhase_spread s1 book
          rw [h2] at this
          simpa using this
        cases ok2 with
        | false =>
          have hr : runBook book = s2 := by
            simp only [runBook, h1, h2]
          constructor
          · intro x hx
            rw [hb, hr, hs2, hs1] at hx
            exact absurd hx (by simp)
          · intro book' hfb hside
            rw [hb, hr, hs2, hs1]
        | true =>
          have hr : runBook book = spreadPhase s2 := by
            simp only [runBook, h1, h2]
          constructor
          · intro x hx
            rw [hb, hr] at hx
            obtain ⟨bb, ba, hbb, hba, h0b, h0a, hx'⟩ :=
              spreadPhase_spread_some s2 x (by rw [hs2, hs1]) hx
            exact ⟨bb, ba, by rw [hb, hr, spreadPhase_best_bid, hbb],
              by rw [hb, hr, spreadPhase_best_ask, hba], h0b, h0a, hx'⟩
          · intro book' hfb hside
            cases hfb
            rw [hb, hr]
            cases hside with
            | inl hbids =>
              have hs1d : s1 = defaultSnapshot := by
                have := bidPhase_nil book hbids
                rw [h1] at this
                exact (Prod.mk.injEq _ _ _ _).mp this |>.1
              have hbb2 : s2.best_bid = none := by
                have := askPhase_best_bid s1 book
                rw [h2] at this
                simpa [hs1d, defaultSnapshot] using this
              rw [spreadPhase_none_bb s2 hbb2, hs2, hs1]
            | inr hasks =>
              have hs21 : s2 = s1 := by
                have := askPhase_nil s1 book hasks
                rw [h2] at this
                exact (Prod.mk.injEq _ _ _ _).mp this |>.1
              have hba2 : s2.best_ask = none := by
                have := bidPhase_best_ask book
                rw [h1] at this
                simpa [hs21] using this
              rw [spreadPhase_none_ba s2 hba2, hs2, hs1]
  · have hd : get_orderbook tok fetch = defaultSnapshot := by
      simp [get_orderbook, ht]
    constructor
    · intro x hx
      rw [hd] at hx
      exact absurd hx (by simp [defaultSnapshot])
    · intro book hfb hside
      rw [hd]
      rfl

/-- C1 witness: the spec's worked example book gives spread
`round(0.65 - 0.62, 4)`, and a book without bids gives a null spread. -/
theorem C1_spread_witness :
    (∃ bb ba, (get_orderbook (some "123") (some bookFed)).best_bid = some bb
      ∧ (get_orderbook (some "123") (some bookFed)).best_ask = some ba
      ∧ bb ≠ 0 ∧ ba ≠ 0 ∧ mkRat 3 100 = roundN 4 (ba - bb))
    ∧ (get_orderbook (some "123") (some ⟨[], bookFed.asks⟩)).spread = none :=
  ⟨(C1_spread_amended (some "123") (some bookFed)).1 (mkRat 3 100) (by decide),
   (C1_spread_amended (some "123") (some ⟨[], bookFed.asks⟩)).2 _ rfl (Or.inl rfl)⟩

/-- C4 fixture: the first bid's price converts but its size does not. -/
def bookBadSize : Book := ⟨[⟨some (PVal.str "0.5"), some (PVal.str "abc")⟩], []⟩

/-- C4 counterexample: a conversion failure while summing bid sizes is
caught only after `result["best_bid"]` has been assigned, so the reader
returns a snapshot with `best_bid = 0.5` — not the all-default snapshot
the claim requires for every parsing failure. -/
theorem C4_partial_counterexample :
    get_orderbook (some "t") (some bookBadSize)
      = { defaultSnapshot with best_bid := some (mkRat 1 2) }
    ∧ get_orderbook (some "t") (some bookBadSize) ≠ defaultSnapshot := by
  exact ⟨by decide, by decide⟩

/-- C4 amended: a failed or undecodable fetch yields the all-default
snapshot, an empty token id yields it without a network call, and a
size-conversion failure on the bids yields the snapshot holding exactly
the fields assigned before the exception (best bid set, all else
default); in every case a snapshot is returned rather than an
exception (the reader is a total function). -/
theorem C4_failure_amended (tok : Option String) (fetch : Option Book) :
    (fetch = none → get_orderbook tok fetch = defaultSnapshot)
    ∧ (tokTruthy tok = false → get_orderbook tok fetch = defaultSnapshot)
    ∧ (∀ book b bs q, fetch = some book → tokTruthy tok = true → book.bids = b :: bs →
        pvalToFloat (b.price.getD (PVal.num 0)) = some q → sumSizes (b :: bs) = none →
        get_orderbook tok fetch = { defaultSnapshot with best_bid := some q }) := by
  refine ⟨?_, ?_, ?_⟩
  · intro h
    subst h
    unfold get_orderbook
    split <;> rfl
  · intro h
    simp [get_orderbook, h]
  · intro book b bs q hf ht hb hq hs
    subst hf
    have hbp : bidPhase book = ({ defaultSnapshot with best_bid := some q }, false) := by
      simp [bidPhase, hb, hq, hs]
    simp [get_orderbook, ht, runBook, hbp]

/-- C4 witness: the partial-snapshot clause applied at the concrete bad
book, and the all-default clause at a failed fetch. -/
theorem C4_failure_witness :
    get_orderbook (some "t") (some bookBadSize)
      = { defaultSnapshot with best_bid := some (mkRat 1 2) }
    ∧ get_orderbook (some "t") none = defaultSnapshot :=
  ⟨(C4_failure_amended (some "t") (some bookBadSize)).2.2 bookBadSize
      ⟨some (PVal.str "0.5"), some (PVal.str "abc")⟩ [] (mkRat 1 2)
      rfl (by decide) rfl (by decide) (by decide),
   (C4_failure_amended (some "t") none).1 rfl⟩

/-- C5 fixture: the resolver's first descriptor has an empty-string
token id, the second a usable one. -/
def mEmptyTok : Market := ⟨some "qa", [""], [], none, none, none⟩

def mGoodTok : Market := ⟨some "qb", ["tok1"], [], none, none, none⟩

def evMixed : Event := ⟨none, [mEmptyTok, mGoodTok]⟩

def wMixed : World := ⟨some evMixed, some bookFed, some midFed, none⟩

/-- C5 counterexample: the resolver returns two descriptors, the second
with the non-empty token id `"tok1"`, yet the pipeline inspects only
`markets[0]` — it takes the fallback path, and with no fallback data it
emits nothing, where the claim requires selecting the second descriptor
for the orderbook/midpoint path. -/
theorem C5_first_only_counterexample :
    (get_markets_for_event "s" (some evMixed)).map Descriptor.token_id = [some "", some "tok1"]
    ∧ tokTruthy (some "tok1") = true
    ∧ pickFirst (get_markets_for_event "s" (some evMixed)) = none
    ∧ processSlug "t" "s" wMixed = none := by decide

/-- C5 amended: the pipeline takes the orderbook/midpoint path iff the
FIRST descriptor exists and has a truthy token id, selecting that
descriptor; in every other case — including when only a later
descriptor carries a token id — it falls through to the Fallback Price
Resolver. -/
theorem C5_selection_amended (ts slug : String) (w : World) (m : Descriptor) :
    ((∃ rest, get_markets_for_event slug w.eventResp = m :: rest ∧ tokTruthy m.token_id = true) →
      processSlug ts slug w = some (buildClobRow ts slug m
        (get_orderbook m.token_id w.bookResp) (get_midpoint m.token_id w.midResp)))
    ∧ ((∀ m' rest, get_markets_for_event slug w.eventResp = m' :: rest → tokTruthy m'.token_id = false) →
      processSlug ts slug w = Option.map (buildGammaRow ts slug) (get_price_from_gamma slug w.gammaResp)) := by
  constructor
  · rintro ⟨rest, hms, htok⟩
    apply processSlug_clob
    rw [hms]
    simp [pickFirst, htok]
  · intro hall
    apply processSlug_gamma
    cases hms : get_markets_for_event slug w.eventResp with
    | nil => rfl
    | cons m' rest => simp [pickFirst, hall m' rest hms]

/-- C5 witness: the selection theorem applied at the worked example,
whose single descriptor has a truthy token id. -/
theorem C5_selection_witness :
    processSlug "t" "s" wFed = some (buildClobRow "t" "s"
      ⟨"s", "Fed decision?", some "123", "Yes", none⟩
      (get_orderbook (some "123") wFed.bookResp) (get_midpoint (some "123") wFed.midResp)) :=
  (C5_selection_amended "t" "s" wFed ⟨"s", "Fed decision?", some "123", "Yes", none⟩).1
    ⟨[], by decide, by decide⟩

/-- C2 fixture: array-encoded outcome prices whose first entry is the
number `0`. -/
def mZeroPrice : Market :=
  ⟨some "q2", [], [], some (OPVal.listV [PVal.num 0, PVal.num 1]), some "12345", none⟩

def evZero : Event := ⟨none, [mZeroPrice]⟩

def wZero : World := ⟨none, none, none, some evZero⟩

/-- The row emitted for `wZero`. -/
def rZero : OutputRow :=
  ⟨"t", "s", String.take "q2" 100, none, none, none, none, 0, 0, "12345", "0"⟩

/-- C2 counterexample: with parseable outcome prices `[0, 1]` the first
parsed price is `0`, but the emitted row's price is null, not `0` —
`float(prices[0]) if prices[0] else None` treats the number `0` as
falsy.  The claim requires the row's price to equal the first parsed
outcome price. -/
theorem C2_zero_price_counterexample :
    opParsed mZeroPrice = some [PVal.num 0, PVal.num 1]
    ∧ processSlug "t" "s" wZero = some rZero
    ∧ rZero.price = none
    ∧ rZero.price ≠ some 0 := by decide

/-- C2 amended: for a slug with no usable first token id and parseable
outcome prices, the emitted row's price equals the first parsed outcome
price whenever that price is truthy (a non-zero number or a non-empty
numeric string); a zero/empty first price yields a null row price; the
row's best bid/ask/spread are null, its depths 0, and volume/liquidity
are passed through from metadata (defaulting to "0"). -/
theorem C2_fallback_amended (ts slug : String) (w : World) (ev : Event) (m : Market)
    (rest : List Market) (p : PVal) (ps : List PVal) (q : ℚ)
    (h1 : pickFirst (get_markets_for_event slug w.eventResp) = none)
    (h2 : w.gammaResp = some ev) (h3 : ev.markets = m :: rest)
    (h4 : opParsed m = some (p :: ps)) (h5 : pvTruthy p = true)
    (h6 : pvalToFloat p = some q) :
    processSlug ts slug w = some
      { timestamp := ts, slug := slug,
        question := (m.question.getD (ev.title.getD slug)).take 100,
        price := some q, best_bid := none, best_ask := none, spread := none,
        bid_depth := 0, ask_depth := 0,
        volume := m.volume.getD "0", liquidity := m.liquidity.getD "0" } := by
  rw [processSlug_gamma ts slug w h1]
  have hg : get_price_from_gamma slug w.gammaResp
      = some ⟨m.question.getD (ev.title.getD slug), some q, m.volume.getD "0", m.liquidity.getD "0"⟩ := by
    rw [h2]
    simp [get_price_from_gamma, h3, h4, h5, h6]
  rw [hg, Option.map_some']
  rfl

/-- C2 witness fixture: the spec's example — string-encoded prices
`["0.95","0.05"]` and volume `"12345"`. -/
def mGamma95 : Market :=
  ⟨some "q95", [], [], some (OPVal.strV "[\"0.95\",\"0.05\"]"), some "12345", none⟩

def evGamma95 : Event := ⟨none, [mGamma95]⟩

def wGamma95 : World := ⟨none, none, none, some evGamma95⟩

/-- C2 witness: the amended claim at the spec's own example, price
`0.95`, volume passed through. -/
theorem C2_fallback_witness :
    processSlug "t" "s" wGamma95 = some
      { timestamp := "t", slug := "s",
        question := (mGamma95.question.getD (evGamma95.title.getD "s")).take 100,
        price := some (mkRat 19 20), best_bid := none, best_ask := none, spread := none,
        bid_depth := 0, ask_depth := 0,
        volume := mGamma95.volume.getD "0", liquidity := mGamma95.liquidity.getD "0" } :=
  C2_fallback_amended "t" "s" wGamma95 evGamma95 mGamma95 [] (PVal.str "0.95")
    [PVal.str "0.05"] (mkRat 19 20) (by decide) rfl rfl (by decide) (by decide) (by decide)

/-- C3 fixture: an outcome-prices string that is a Python expression,
not a JSON array. -/
def mEvalRep : Market := ⟨some "q3", [], [], some (OPVal.strV "[0.5]*2"), some "7", none⟩

def evEvalRep : Event := ⟨none, [mEvalRep]⟩

/-- C3: the source parses the outcome-prices text with Python `eval`,
which accepts the expression `"[0.5]*2"` (value `[0.5, 0.5]`) and lets
it flow into an emitted price, while the strict JSON-style parser the
claim requires rejects that text and accepts exactly literal arrays.
This exhibits the divergence on a concrete input; the unrestricted
evaluator additionally executes arbitrary attacker-chosen expressions,
which no shallow model can bound. -/
theorem C3_eval_not_strict :
    pyEvalPrices "[0.5]*2" = some [PVal.num (mkRat 1 2), PVal.num (mkRat 1 2)]
    ∧ jsonParsePrices "[0.5]*2" = none
    ∧ jsonParsePrices "[\"0.95\",\"0.05\"]" = some [PVal.str "0.95", PVal.str "0.05"]
    ∧ get_price_from_gamma "s" (some evEvalRep)
        = some ⟨"q3", some (mkRat 1 2), "7", "0"⟩ := by decide

/-- C8: starting from a non-existent file, the first run writes the
header once followed by its rows; the second run appends its rows after
the first run's lines, leaving them unchanged; both runs yield the same
number N of rows, and the final file has exactly 1 + 2N lines. -/
theorem C8_append_only (ts1 ts2 : String) (inputs : List (String × World))
    (h : runPipeline ts1 inputs ≠ []) :
    mainRun ts1 inputs none = some (CsvLine.header :: (runPipeline ts1 inputs).map CsvLine.data)
    ∧ mainRun ts2 inputs (mainRun ts1 inputs none)
        = some (CsvLine.header :: ((runPipeline ts1 inputs).map CsvLine.data
            ++ (runPipeline ts2 inputs).map CsvLine.data))
    ∧ (runPipeline ts2 inputs).length = (runPipeline ts1 inputs).length
    ∧ (CsvLine.header :: ((runPipeline ts1 inputs).map CsvLine.data
        ++ (runPipeline ts2 inputs).map CsvLine.data)).length
      = 1 + (runPipeline ts1 inputs).length + (runPipeline ts2 inputs).length := by
  have hlen := runPipeline_length ts2 ts1 inputs
  have h2 : runPipeline ts2 inputs ≠ [] := by
    intro hnil
    rw [hnil] at hlen
    exact h (List.length_eq_zero.mp hlen.symm)
  have he1 : ¬(runPipeline ts1 inputs).isEmpty = true := by
    rw [List.isEmpty_iff]
    exact h
  have he2 : ¬(runPipeline ts2 inputs).isEmpty = true := by
    rw [List.isEmpty_iff]
    exact h2
  have hw1 : mainRun ts1 inputs none
      = some (CsvLine.header :: (runPipeline ts1 inputs).map CsvLine.data) := by
    unfold mainRun
    rw [if_neg he1]
    rfl
  refine ⟨hw1, ?_, hlen, ?_⟩
  · rw [hw1]
    unfold mainRun
    rw [if_neg he2]
    simp [write_to_csv]
  · simp only [List.length_cons, List.length_append, List.length_map]
    omega

/-- C8 witness: two runs over one data-yielding slug. -/
theorem C8_append_witness :
    mainRun "t2" [("s", wGamma95)] (mainRun "t1" [("s", wGamma95)] none)
      = some (CsvLine.header :: ((runPipeline "t1" [("s", wGamma95)]).map CsvLine.data
          ++ (runPipeline "t2" [("s", wGamma95)]).map CsvLine.data)) :=
  (C8_append_only "t1" "t2" [("s", wGamma95)] (by decide)).2.1
